import Mathlib

/-!
Verification development for the synapse-formation core of the `synapses`
repository (BioDynaMo-based neuron simulation).

The embedding models:
* the parent-chain walk that resolves which root neuron owns a neurite
  (`FindParentNeuron` in `MyNeuron.h` and `basic_neuron.h`, and the two inline
  walks in `SynapseFormation::DendriticDetector` in `synapse_op.h`);
* the per-neuron synapse lists and the duplicate-avoiding insertion
  (`hasSynapse`, `AddSynapse`, `CreateSynapseBetweenNeurites`);
* the neighbour classifier `SynapseFormation::DendriticDetector` (closest
  cross-owner neurite under the strict distance cutoff 1.0, broad squared
  radius 25), including the undefined-behaviour paths of the C++ code (a null
  dereference when a neighbour's parent chain has no owning neuron, and a read
  of the uninitialized `mother_cell_uid` when the tip's own chain has none);
* the per-tick behaviour `SynapseFormation::Run` and the scheduling operation
  `synapse_op::operator()`;
* the CSV export routines `export_adjacency_matrix_with_all_neurons`
  (`MyNeuron.h`) and `export_connection_list` (`basic_neuron.h`), modelled as
  the list of emitted rows.

Conventions: agent identities (uids) are `Int`; `real_t` values supplied by
the engine (squared distances, recorded synapse distances) are modelled as
rationals, while the classifier's internal `std::sqrt` computations live in
`ℝ`; the sentinel `std::numeric_limits<real_t>::max()` initial value of
`closest_distance` is modelled as an absent value (`Option.none`) that
compares greater than every actual distance; C++ undefined behaviour is
modelled as an `Except.error` outcome that aborts the enclosing computation.
-/

/-- A node of a parent ("mother") chain above a neurite element, as seen by
the `dynamic_cast` probes of the source: either a root neuron soma
(`MyNeuron` / `basic_neuron`) carrying its uid, or another neurite element.
A chain is the list of successive mothers of an element, nearest first; the
list ending corresponds to `GetMother()` returning null. -/
inductive ChainNode where
  | rootNode (uid : Int)
  | neuriteNode
  deriving DecidableEq, Repr

/-- A synapse record (`Synapses` class, identical in both headers): source and
target root-neuron uids, formation distance, strength, formation time. -/
structure Synapse where
  source : Int
  target : Int
  distance : ℚ
  strength : Int
  time : Int
  deriving DecidableEq, Repr

/-- The mutable store of per-neuron outgoing synapse lists (`synapses_`
members), keyed by the owning root neuron's uid.  `reg u` is neuron `u`'s
`GetSynapses()` list; `AddSynapse` is `push_back`. -/
abbrev Registry : Type := Int → List Synapse

namespace MyN

/-- `FindParentNeuron` from `MyNeuron.h`: walk the mother chain, returning
the uid of the first node that casts to a root neuron, or none when the
chain is exhausted without finding one. -/
def FindParentNeuron : List ChainNode → Option Int
  | [] => none
  | ChainNode.rootNode u :: _ => some u
  | ChainNode.neuriteNode :: rest => FindParentNeuron rest

/-- `hasSynapse` from `MyNeuron.h`: true when neuron `a`'s list holds a
synapse targeting `b`, or neuron `b`'s list holds a synapse targeting `a`. -/
def hasSynapse (reg : Registry) (a b : Int) : Bool :=
  ((reg a).any fun s => s.target == b) || ((reg b).any fun s => s.target == a)

/-- `MyNeuron::AddSynapse`: append one synapse with source `src` to `src`'s
list. -/
def AddSynapse (reg : Registry) (src tgt : Int) (d : ℚ) (st ti : Int) :
    Registry :=
  fun u => if u = src then reg u ++ [⟨src, tgt, d, st, ti⟩] else reg u

/-- `CreateSynapseBetweenNeurites` from `MyNeuron.h`: resolve both neurites'
parent neurons; if both resolve and no synapse links them in either
direction, append one synapse to the first neuron's list; otherwise leave
the store unchanged (the unresolved case also prints a diagnostic). -/
def CreateSynapseBetweenNeurites (reg : Registry)
    (n1 n2 : List ChainNode) (d : ℚ) (st ti : Int) : Registry :=
  match FindParentNeuron n1, FindParentNeuron n2 with
  | some a, some b =>
      if hasSynapse reg a b then reg else AddSynapse reg a b d st ti
  | _, _ => reg

end MyN

namespace BasicN

/-- `FindParentNeuron` from `basic_neuron.h` (same loop, `basic_neuron`
cast). -/
def FindParentNeuron : List ChainNode → Option Int
  | [] => none
  | ChainNode.rootNode u :: _ => some u
  | ChainNode.neuriteNode :: rest => FindParentNeuron rest

/-- `hasSynapse` from `basic_neuron.h`. -/
def hasSynapse (reg : Registry) (a b : Int) : Bool :=
  ((reg a).any fun s => s.target == b) || ((reg b).any fun s => s.target == a)

/-- `basic_neuron::AddSynapse`. -/
def AddSynapse (reg : Registry) (src tgt : Int) (d : ℚ) (st ti : Int) :
    Registry :=
  fun u => if u = src then reg u ++ [⟨src, tgt, d, st, ti⟩] else reg u

/-- `CreateSynapseBetweenNeurites` from `basic_neuron.h`. -/
def CreateSynapseBetweenNeurites (reg : Registry)
    (n1 n2 : List ChainNode) (d : ℚ) (st ti : Int) : Registry :=
  match FindParentNeuron n1, FindParentNeuron n2 with
  | some a, some b =>
      if hasSynapse reg a b then reg else AddSynapse reg a b d st ti
  | _, _ => reg

end BasicN

/-- Direction vectors (`Real3`), carried by the classifier's auxiliary output
parameter; components are modelled as rationals since the classifier never
performs arithmetic on them. -/
def Dir : Type := ℚ × ℚ × ℚ

instance : DecidableEq Dir := by unfold Dir; infer_instance

/-- One agent handed to the neighbour callback by the engine's
`ForEachNeighbor` primitive: whether it casts to a `NeuriteElement`, the uid
index reported by `GetUid().GetIndex()`, its mother chain, the squared
distance supplied by the engine, and (ghost data, never read by the code)
its position offset from the querying tip. -/
structure NeighborAgent where
  isNeurite : Bool
  uidIndex : Int
  ancestors : List ChainNode
  sqDist : ℚ
  relPos : Dir
  deriving DecidableEq

/-- The undefined-behaviour outcomes of `DendriticDetector`: `nullDeref` is
`neighbor_mother_neuron->GetUid()` with a null pointer (neighbour chain
exhausted with no root neuron); `uninitRead` is the comparison against the
never-initialized `mother_cell_uid` (tip chain exhausted with no root
neuron). -/
inductive DetUB where
  | nullDeref
  | uninitRead
  deriving DecidableEq

/-- The running state of the neighbour scan: `closest_neighbour_uid`
(initially `-1`) and `closest_distance` (initially
`std::numeric_limits<real_t>::max()`, modelled as `none`). -/
structure DetState where
  closestUid : Int
  closestDist : Option ℝ

/-- The mother-chain walk at the top of `DendriticDetector` (`synapse_op.h`):
repeatedly take `GetMother()` until the node casts to a `basic_neuron`,
yielding its uid, or the chain ends, yielding none. -/
def motherUidOf : List ChainNode → Option Int
  | [] => none
  | ChainNode.rootNode u :: _ => some u
  | ChainNode.neuriteNode :: rest => motherUidOf rest

/-- The body of the `print_id_distance` lambda in `DendriticDetector`, for a
single neighbour `a` given the tip's resolved owner (`motherUid`, none when
the tip's chain had no root neuron and `mother_cell_uid` was left
uninitialized): skip non-neurites; walk the neighbour's chain (unchecked
`GetUid()` on failure); compare owners (reading `mother_cell_uid`); and for
cross-owner neighbours update the closest candidate when
`sqrt(squared_distance)` beats the stored distance and is strictly below
`1`. -/
noncomputable def detectorStep (motherUid : Option Int) (st : DetState)
    (a : NeighborAgent) : Except DetUB DetState :=
  if a.isNeurite then
    match motherUidOf a.ancestors with
    | none => Except.error DetUB.nullDeref
    | some nUid =>
        match motherUid with
        | none => Except.error DetUB.uninitRead
        | some mUid =>
            if nUid ≠ mUid then
              let d : ℝ := Real.sqrt (a.sqDist : ℝ)
              match st.closestDist with
              | none =>
                  if d < 1 then Except.ok ⟨a.uidIndex, some d⟩
                  else Except.ok st
              | some c =>
                  if d < c ∧ d < 1 then Except.ok ⟨a.uidIndex, some d⟩
                  else Except.ok st
            else Except.ok st
  else Except.ok st

/-- The neighbour scan: the engine invokes the lambda once per enumerated
agent, in enumeration order; the first undefined-behaviour event poisons the
whole call. -/
noncomputable def detectorLoop (motherUid : Option Int) :
    List NeighborAgent → DetState → Except DetUB DetState
  | [], st => Except.ok st
  | a :: rest, st =>
      match detectorStep motherUid st a with
      | Except.error e => Except.error e
      | Except.ok st2 => detectorLoop motherUid rest st2

/-- The squared-distance radius passed to `ForEachNeighbor` (the literal `25`
at the call site). -/
def searchRadiusSq : ℚ := 25

/-- The engine's neighbour-enumeration primitive, modelled as delivering, in
order, the candidates within the given squared-distance radius. -/
def forEachNeighborWithin (r : ℚ) (ns : List NeighborAgent) :
    List NeighborAgent :=
  ns.filter fun a => a.sqDist ≤ r

/-- `SynapseFormation::DendriticDetector` (`synapse_op.h`): resolve the tip's
owner, scan the neighbours within squared distance 25, and return the
closest cross-owner neurite's uid (sentinel `-1` when none was strictly
below distance 1) together with the auxiliary direction parameter, which the
code never writes. -/
noncomputable def DendriticDetector (tipAncestors : List ChainNode)
    (ns : List NeighborAgent) (dirIn : Dir) : Except DetUB (Int × Dir) :=
  let motherUid := motherUidOf tipAncestors
  match detectorLoop motherUid (forEachNeighborWithin searchRadiusSq ns)
      ⟨-1, none⟩ with
  | Except.error e => Except.error e
  | Except.ok st =>
      Except.ok (if st.closestUid ≠ -1 then st.closestUid else -1, dirIn)

/-- A neighbour qualifies for selection when it is a neurite, its mother
chain resolves to a root neuron different from the tip's, and its distance
is strictly below the formation cutoff `1` (equivalently, its squared
distance is below `1`). -/
def qualifies (mUid : Int) (a : NeighborAgent) : Bool :=
  a.isNeurite &&
    (match motherUidOf a.ancestors with
     | some n => n != mUid
     | none => false) &&
    decide (a.sqDist < 1)

/-- The pure running-minimum fold the neighbour scan reduces to on
qualifying candidates: replace the stored candidate exactly when the new
distance is strictly smaller (the `max` sentinel always loses). -/
noncomputable def minFold : List (Int × ℝ) → DetState → DetState
  | [], st => st
  | p :: rest, st =>
      minFold rest
        (match st.closestDist with
         | none => ⟨p.1, some p.2⟩
         | some c => if p.2 < c then ⟨p.1, some p.2⟩ else st)

theorem detectorStep_not_neurite {a : NeighborAgent} (m : Option Int)
    (st : DetState) (h : a.isNeurite = false) :
    detectorStep m st a = Except.ok st := by
  simp [detectorStep, h]

theorem detectorStep_same_owner {a : NeighborAgent} {mUid : Int}
    (st : DetState) (hn : motherUidOf a.ancestors = some mUid) :
    detectorStep (some mUid) st a = Except.ok st := by
  by_cases hne : a.isNeurite = true
  · simp [detectorStep, hne, hn]
  · have hne' : a.isNeurite = false := by simpa using hne
    simp [detectorStep, hne']

theorem sqrt_lt_one_iff_q (q : ℚ) : Real.sqrt (q : ℝ) < 1 ↔ q < 1 := by
  rw [Real.sqrt_lt' one_pos, one_pow]
  exact_mod_cast Iff.rfl

theorem detectorStep_cross_far {a : NeighborAgent} {mUid n : Int}
    (st : DetState) (hn : motherUidOf a.ancestors = some n)
    (hne : a.isNeurite = true) (hnm : n ≠ mUid) (hfar : ¬ a.sqDist < 1) :
    detectorStep (some mUid) st a = Except.ok st := by
  have hd : ¬ Real.sqrt (a.sqDist : ℝ) < 1 := fun h =>
    hfar ((sqrt_lt_one_iff_q a.sqDist).mp h)
  cases hc : st.closestDist with
  | none => simp [detectorStep, hne, hn, hnm, hc, hd]
  | some c =>
      simp only [detectorStep, hne, if_true, hn, hc]
      rw [if_pos hnm, if_neg (fun h => hd h.2)]

theorem detectorStep_cross_near {a : NeighborAgent} {mUid n : Int}
    (st : DetState) (hn : motherUidOf a.ancestors = some n)
    (hne : a.isNeurite = true) (hnm : n ≠ mUid) (hnear : a.sqDist < 1) :
    detectorStep (some mUid) st a =
      Except.ok
        (match st.closestDist with
         | none => ⟨a.uidIndex, some (Real.sqrt (a.sqDist : ℝ))⟩
         | some c =>
             if Real.sqrt (a.sqDist : ℝ) < c then
               ⟨a.uidIndex, some (Real.sqrt (a.sqDist : ℝ))⟩
             else st) := by
  have hd : Real.sqrt (a.sqDist : ℝ) < 1 := (sqrt_lt_one_iff_q a.sqDist).mpr hnear
  cases hc : st.closestDist with
  | none => simp [detectorStep, hne, hn, hnm, hc, hd]
  | some c =>
      simp only [detectorStep, hne, if_true, hn, hc]
      rw [if_pos hnm]
      by_cases hlt : Real.sqrt (a.sqDist : ℝ) < c
      · rw [if_pos ⟨hlt, hd⟩, if_pos hlt]
      · rw [if_neg (fun h => hlt h.1), if_neg hlt]

/-- The neighbour scan over a list whose neurite members all resolve is the
running-minimum fold over the qualifying candidates, paired with their
linear distances. -/
theorem detectorLoop_eq_minFold (mUid : Int) (l : List NeighborAgent) :
    ∀ st : DetState,
      (∀ a ∈ l, a.isNeurite = true → (motherUidOf a.ancestors).isSome = true) →
      detectorLoop (some mUid) l st =
        Except.ok (minFold ((l.filter (qualifies mUid)).map
          fun a => (a.uidIndex, Real.sqrt (a.sqDist : ℝ))) st) := by
  induction l with
  | nil => intro st _; rfl
  | cons a rest ih =>
      intro st hres
      have hres' : ∀ b ∈ rest, b.isNeurite = true →
          (motherUidOf b.ancestors).isSome = true :=
        fun b hb => hres b (List.mem_cons_of_mem a hb)
      by_cases hne : a.isNeurite = true
      · obtain ⟨n, hn⟩ : ∃ n, motherUidOf a.ancestors = some n := by
          have := hres a (List.mem_cons_self a rest) hne
          cases h : motherUidOf a.ancestors with
          | none => rw [h] at this; exact absurd this (by simp)
          | some n => exact ⟨n, rfl⟩
        by_cases hnm : n = mUid
        · have hq : qualifies mUid a = false := by
            simp [qualifies, hn, hnm]
          rw [List.filter_cons_of_neg (by simp [hq])]
          show (match detectorStep (some mUid) st a with
                | Except.error e => Except.error e
                | Except.ok st2 => detectorLoop (some mUid) rest st2) = _
          rw [hnm] at hn
          rw [detectorStep_same_owner st hn]
          exact ih st hres'
        · by_cases hnear : a.sqDist < 1
          · have hq : qualifies mUid a = true := by
              simp [qualifies, hne, hn, hnm, hnear]
            rw [List.filter_cons_of_pos (by simp [hq]), List.map_cons]
            show (match detectorStep (some mUid) st a with
                  | Except.error e => Except.error e
                  | Except.ok st2 => detectorLoop (some mUid) rest st2) = _
            rw [detectorStep_cross_near st hn hne hnm hnear]
            show detectorLoop (some mUid) rest _ = Except.ok (minFold _ _)
            rw [ih _ hres']
            rfl
          · have hq : qualifies mUid a = false := by
              simp [qualifies, hnear]
            rw [List.filter_cons_of_neg (by simp [hq])]
            show (match detectorStep (some mUid) st a with
                  | Except.error e => Except.error e
                  | Except.ok st2 => detectorLoop (some mUid) rest st2) = _
            rw [detectorStep_cross_far st hn hne hnm hnear]
            exact ih st hres'
      · have hne' : a.isNeurite = false := by simpa using hne
        have hq : qualifies mUid a = false := by simp [qualifies, hne']
        rw [List.filter_cons_of_neg (by simp [hq])]
        show (match detectorStep (some mUid) st a with
              | Except.error e => Except.error e
              | Except.ok st2 => detectorLoop (some mUid) rest st2) = _
        rw [detectorStep_not_neurite (some mUid) st hne']
        exact ih st hres'

/-- Characterization of the running minimum started from an actual stored
candidate `(u, c)`: either no entry strictly undercuts `c` and the state is
unchanged, or the result is the unique entry whose value is strictly below
`c`, is a minimum of the whole list, and strictly undercuts every earlier
entry (first-encountered wins ties). -/
theorem minFold_some_spec (ps : List (Int × ℝ)) :
    ∀ (u : Int) (c : ℝ),
      (minFold ps ⟨u, some c⟩ = ⟨u, some c⟩ ∧ ∀ p ∈ ps, c ≤ p.2) ∨
      (∃ i, ∃ h : i < ps.length,
        minFold ps ⟨u, some c⟩ =
          ⟨(ps.get ⟨i, h⟩).1, some (ps.get ⟨i, h⟩).2⟩ ∧
        (ps.get ⟨i, h⟩).2 < c ∧
        (∀ j, ∀ hj : j < ps.length, (ps.get ⟨i, h⟩).2 ≤ (ps.get ⟨j, hj⟩).2) ∧
        (∀ j, ∀ hj : j < ps.length, j < i →
          (ps.get ⟨i, h⟩).2 < (ps.get ⟨j, hj⟩).2)) := by
  induction ps with
  | nil => intro u c; exact Or.inl ⟨rfl, by simp⟩
  | cons p rest ih =>
      intro u c
      by_cases h1 : p.2 < c
      · have hstep : minFold (p :: rest) ⟨u, some c⟩ =
            minFold rest ⟨p.1, some p.2⟩ := by
          show minFold rest (if p.2 < c then ⟨p.1, some p.2⟩ else ⟨u, some c⟩)
              = _
          rw [if_pos h1]
        rcases ih p.1 p.2 with ⟨heq, hall⟩ | ⟨i, hi, heq, hlt, hmin, hstrict⟩
        · refine Or.inr ⟨0, by simp, ?_, ?_, ?_, ?_⟩
          · rw [hstep, heq]; rfl
          · simpa using h1
          · intro j hj
            match j, hj with
            | 0, _ => exact le_refl _
            | j + 1, hj =>
                exact hall _ (List.get_mem rest j
                  (by simpa using Nat.lt_of_succ_lt_succ hj))
          · intro j hj hj0; omega
        · refine Or.inr ⟨i + 1, by simpa using Nat.succ_lt_succ hi, ?_, ?_, ?_, ?_⟩
          · rw [hstep, heq]; rfl
          · exact lt_trans hlt h1
          · intro j hj
            match j, hj with
            | 0, _ =>
                exact le_of_lt hlt
            | j + 1, hj =>
                exact hmin j (by simpa using Nat.lt_of_succ_lt_succ hj)
          · intro j hj hji
            match j, hj with
            | 0, _ =>
                exact hlt
            | j + 1, hj =>
                exact hstrict j (by simpa using Nat.lt_of_succ_lt_succ hj)
                  (Nat.lt_of_succ_lt_succ hji)
      · have hstep : minFold (p :: rest) ⟨u, some c⟩ =
            minFold rest ⟨u, some c⟩ := by
          show minFold rest (if p.2 < c then ⟨p.1, some p.2⟩ else ⟨u, some c⟩)
              = _
          rw [if_neg h1]
        rcases ih u c with ⟨heq, hall⟩ | ⟨i, hi, heq, hlt, hmin, hstrict⟩
        · refine Or.inl ⟨by rw [hstep, heq], ?_⟩
          intro q hq
          rcases List.mem_cons.mp hq with hq | hq
          · rw [hq]; exact le_of_not_lt h1
          · exact hall q hq
        · refine Or.inr ⟨i + 1, by simpa using Nat.succ_lt_succ hi, ?_, ?_, ?_, ?_⟩
          · rw [hstep, heq]; rfl
          · exact hlt
          · intro j hj
            match j, hj with
            | 0, _ =>
                exact le_of_lt (lt_of_lt_of_le hlt (le_of_not_lt h1))
            | j + 1, hj =>
                exact hmin j (by simpa using Nat.lt_of_succ_lt_succ hj)
          · intro j hj hji
            match j, hj with
            | 0, _ =>
                exact lt_of_lt_of_le hlt (le_of_not_lt h1)
            | j + 1, hj =>
                exact hstrict j (by simpa using Nat.lt_of_succ_lt_succ hj)
                  (Nat.lt_of_succ_lt_succ hji)

/-- Characterization of the running minimum from the initial sentinel state:
an empty candidate list leaves the sentinel, a non-empty one selects the
first element attaining the minimum value. -/
theorem minFold_none_spec (ps : List (Int × ℝ)) (u0 : Int) :
    (ps = [] → minFold ps ⟨u0, none⟩ = ⟨u0, none⟩) ∧
    (ps ≠ [] → ∃ i, ∃ h : i < ps.length,
      minFold ps ⟨u0, none⟩ =
        ⟨(ps.get ⟨i, h⟩).1, some (ps.get ⟨i, h⟩).2⟩ ∧
      (∀ j, ∀ hj : j < ps.length, (ps.get ⟨i, h⟩).2 ≤ (ps.get ⟨j, hj⟩).2) ∧
      (∀ j, ∀ hj : j < ps.length, j < i →
        (ps.get ⟨i, h⟩).2 < (ps.get ⟨j, hj⟩).2)) := by
  cases ps with
  | nil => exact ⟨fun _ => rfl, fun h => absurd rfl h⟩
  | cons p rest =>
      refine ⟨fun h => absurd h (by simp), fun _ => ?_⟩
      have hstep : minFold (p :: rest) ⟨u0, none⟩ =
          minFold rest ⟨p.1, some p.2⟩ := rfl
      rcases minFold_some_spec rest p.1 p.2 with
        ⟨heq, hall⟩ | ⟨i, hi, heq, hlt, hmin, hstrict⟩
      · refine ⟨0, by simp, by rw [hstep, heq]; rfl, ?_, ?_⟩
        · intro j hj
          match j, hj with
          | 0, _ => exact le_refl _
          | j + 1, hj =>
              exact hall _ (List.get_mem rest j
                (by simpa using Nat.lt_of_succ_lt_succ hj))
        · intro j hj hj0; omega
      · refine ⟨i + 1, by simpa using Nat.succ_lt_succ hi,
          by rw [hstep, heq]; rfl, ?_, ?_⟩
        · intro j hj
          match j, hj with
          | 0, _ =>
              exact le_of_lt hlt
          | j + 1, hj =>
              exact hmin j (by simpa using Nat.lt_of_succ_lt_succ hj)
        · intro j hj hji
          match j, hj with
          | 0, _ =>
              exact hlt
          | j + 1, hj =>
              exact hstrict j (by simpa using Nat.lt_of_succ_lt_succ hj)
                (Nat.lt_of_succ_lt_succ hji)

/-- The candidates the classifier can select from: neighbours delivered by
the engine within squared-distance 25, that are neurites, whose mother chain
resolves to a root neuron different from the tip's, and whose distance is
strictly below the cutoff `1`. -/
def qualifyingCandidates (mUid : Int) (ns : List NeighborAgent) :
    List NeighborAgent :=
  (forEachNeighborWithin searchRadiusSq ns).filter (qualifies mUid)

theorem ite_ne_neg_one (x : Int) : (if x ≠ -1 then x else -1) = x := by
  by_cases hx : x = -1 <;> simp [hx]

theorem get_map_dist (qs : List NeighborAgent) (i : ℕ) (h : i < qs.length)
    (h2 : i < (qs.map fun a => (a.uidIndex, Real.sqrt (a.sqDist : ℝ))).length) :
    (qs.map fun a => (a.uidIndex, Real.sqrt (a.sqDist : ℝ))).get ⟨i, h2⟩ =
      ((qs.get ⟨i, h⟩).uidIndex, Real.sqrt ((qs.get ⟨i, h⟩).sqDist : ℝ)) := by
  simp [List.get_eq_getElem, List.getElem_map]

/-- C1: for a tip whose owner resolves, and an enumeration in which every
neurite candidate's owner resolves, the classifier enumerates candidates
within squared-distance 25, considers only neurite candidates owned by a
root neuron different from the tip's, and returns the candidate of minimum
linear distance among those strictly below distance 1.0 (sentinel `-1`,
i.e. "none", when no candidate is strictly below 1.0); on exact distance
ties the first-encountered candidate wins (every strictly earlier candidate
has strictly greater distance). -/
theorem c1_nearest_cross_owner_selection
    (tipAnc : List ChainNode) (mUid : Int) (ns : List NeighborAgent)
    (dirIn : Dir)
    (hm : motherUidOf tipAnc = some mUid)
    (hres : ∀ a ∈ forEachNeighborWithin searchRadiusSq ns,
      a.isNeurite = true → (motherUidOf a.ancestors).isSome = true) :
    (qualifyingCandidates mUid ns = [] →
      DendriticDetector tipAnc ns dirIn = Except.ok (-1, dirIn)) ∧
    (qualifyingCandidates mUid ns ≠ [] →
      ∃ i, ∃ h : i < (qualifyingCandidates mUid ns).length,
        DendriticDetector tipAnc ns dirIn =
          Except.ok (((qualifyingCandidates mUid ns).get ⟨i, h⟩).uidIndex,
            dirIn) ∧
        (∀ j, ∀ hj : j < (qualifyingCandidates mUid ns).length,
          Real.sqrt (((qualifyingCandidates mUid ns).get ⟨i, h⟩).sqDist : ℝ) ≤
          Real.sqrt (((qualifyingCandidates mUid ns).get ⟨j, hj⟩).sqDist : ℝ)) ∧
        (∀ j, ∀ hj : j < (qualifyingCandidates mUid ns).length, j < i →
          Real.sqrt (((qualifyingCandidates mUid ns).get ⟨i, h⟩).sqDist : ℝ) <
          Real.sqrt (((qualifyingCandidates mUid ns).get ⟨j, hj⟩).sqDist : ℝ)))
    := by
  have hloop := detectorLoop_eq_minFold mUid
    (forEachNeighborWithin searchRadiusSq ns) ⟨-1, none⟩ hres
  have hdet : DendriticDetector tipAnc ns dirIn =
      Except.ok
        ((minFold ((qualifyingCandidates mUid ns).map
            fun a => (a.uidIndex, Real.sqrt (a.sqDist : ℝ))) ⟨-1, none⟩).closestUid,
          dirIn) := by
    simp only [DendriticDetector, hm, hloop, ite_ne_neg_one]
    rfl
  constructor
  · intro hq
    rw [hdet, hq]
    rfl
  · intro hq
    have hps : (qualifyingCandidates mUid ns).map
        (fun a => (a.uidIndex, Real.sqrt (a.sqDist : ℝ))) ≠ [] := by
      simpa using hq
    obtain ⟨i, hi, heq, hmin, hstrict⟩ :=
      (minFold_none_spec ((qualifyingCandidates mUid ns).map
        (fun a => (a.uidIndex, Real.sqrt (a.sqDist : ℝ)))) (-1)).2 hps
    have hi' : i < (qualifyingCandidates mUid ns).length := by
      simpa using hi
    refine ⟨i, hi', ?_, ?_, ?_⟩
    · rw [hdet, heq, get_map_dist _ i hi' hi]
    · intro j hj
      have hj2 : j < ((qualifyingCandidates mUid ns).map
          (fun a => (a.uidIndex, Real.sqrt (a.sqDist : ℝ)))).length := by
        simpa using hj
      have := hmin j hj2
      rwa [get_map_dist _ i hi' hi, get_map_dist _ j hj hj2] at this
    · intro j hj hji
      have hj2 : j < ((qualifyingCandidates mUid ns).map
          (fun a => (a.uidIndex, Real.sqrt (a.sqDist : ℝ)))).length := by
        simpa using hj
      have := hstrict j hj2 hji
      rwa [get_map_dist _ i hi' hi, get_map_dist _ j hj hj2] at this

/-- A concrete tip owned by root neuron 1. -/
def c1Tip : List ChainNode := [ChainNode.rootNode 1]

/-- Concrete neighbours realizing the reference distances 0.3, 0.9, 1.2 and
0.5 (squared distances 9/100, 81/100, 36/25 and 1/4), all owned by root
neurons other than the tip's. -/
def c1Neighbors : List NeighborAgent :=
  [⟨true, 10, [ChainNode.rootNode 2], mkRat 9 100, (0, 0, 0)⟩,
   ⟨true, 11, [ChainNode.rootNode 2], mkRat 81 100, (0, 0, 0)⟩,
   ⟨true, 12, [ChainNode.rootNode 3], mkRat 36 25, (0, 0, 0)⟩,
   ⟨true, 13, [ChainNode.rootNode 2], mkRat 1 4, (0, 0, 0)⟩]

/-- Witness for C1 at the spec's reference candidate distances. -/
theorem c1_nearest_cross_owner_selection_witness :
    (qualifyingCandidates 1 c1Neighbors = [] →
      DendriticDetector c1Tip c1Neighbors (0, 0, 0) =
        Except.ok (-1, (0, 0, 0))) ∧
    (qualifyingCandidates 1 c1Neighbors ≠ [] →
      ∃ i, ∃ h : i < (qualifyingCandidates 1 c1Neighbors).length,
        DendriticDetector c1Tip c1Neighbors (0, 0, 0) =
          Except.ok (((qualifyingCandidates 1 c1Neighbors).get ⟨i, h⟩).uidIndex,
            (0, 0, 0)) ∧
        (∀ j, ∀ hj : j < (qualifyingCandidates 1 c1Neighbors).length,
          Real.sqrt
              (((qualifyingCandidates 1 c1Neighbors).get ⟨i, h⟩).sqDist : ℝ) ≤
          Real.sqrt
              (((qualifyingCandidates 1 c1Neighbors).get ⟨j, hj⟩).sqDist : ℝ)) ∧
        (∀ j, ∀ hj : j < (qualifyingCandidates 1 c1Neighbors).length, j < i →
          Real.sqrt
              (((qualifyingCandidates 1 c1Neighbors).get ⟨i, h⟩).sqDist : ℝ) <
          Real.sqrt
              (((qualifyingCandidates 1 c1Neighbors).get ⟨j, hj⟩).sqDist : ℝ)))
    :=
  c1_nearest_cross_owner_selection c1Tip 1 c1Neighbors (0, 0, 0)
    (by decide) (by decide)

theorem hasSynapse_comm (reg : Registry) (a b : Int) :
    MyN.hasSynapse reg a b = MyN.hasSynapse reg b a := by
  unfold MyN.hasSynapse
  exact Bool.or_comm _ _

/-- C2: for distinct neurons `a` and `b` whose neurites resolve, if any
existing connection links them in either direction (`hasSynapse`), a further
insertion in either argument order — including an exact repeat — performs no
insertion and leaves the whole store (in particular both neurons' lists)
unchanged; otherwise the insertion appends exactly one new connection
`a → b` to the source's list and changes no other list.  (The C++ routine
returns `void`; "reports failure/success" is realized as the no-op versus
the append.) -/
theorem c2_duplicate_avoidance_symmetric
    (reg : Registry) (a b : Int) (hab : a ≠ b)
    (n1 n2 : List ChainNode)
    (h1 : MyN.FindParentNeuron n1 = some a)
    (h2 : MyN.FindParentNeuron n2 = some b)
    (d : ℚ) (st ti : Int) :
    (MyN.hasSynapse reg a b = true →
      MyN.CreateSynapseBetweenNeurites reg n1 n2 d st ti = reg ∧
      MyN.CreateSynapseBetweenNeurites reg n2 n1 d st ti = reg) ∧
    (MyN.hasSynapse reg a b = false →
      MyN.CreateSynapseBetweenNeurites reg n1 n2 d st ti a =
        reg a ++ [⟨a, b, d, st, ti⟩] ∧
      ∀ u, u ≠ a →
        MyN.CreateSynapseBetweenNeurites reg n1 n2 d st ti u = reg u) := by
  constructor
  · intro hdup
    constructor
    · unfold MyN.CreateSynapseBetweenNeurites
      rw [h1, h2]
      simp [hdup]
    · unfold MyN.CreateSynapseBetweenNeurites
      rw [h1, h2]
      simp [hasSynapse_comm reg b a, hdup]
  · intro hnew
    constructor
    · unfold MyN.CreateSynapseBetweenNeurites
      rw [h1, h2]
      simp [hnew, MyN.AddSynapse]
    · intro u hu
      unfold MyN.CreateSynapseBetweenNeurites
      rw [h1, h2]
      simp [hnew, MyN.AddSynapse, hu]

/-- A store holding exactly one connection 1 → 2. -/
def c2Reg : Registry := fun u => if u = 1 then [⟨1, 2, 0, 1, 0⟩] else []

/-- Witness for C2: with 1 → 2 on record, insertion in either order is a
no-op; after clearing, insertion appends. -/
theorem c2_duplicate_avoidance_symmetric_witness :
    (MyN.hasSynapse c2Reg 1 2 = true →
      MyN.CreateSynapseBetweenNeurites c2Reg [ChainNode.rootNode 1]
          [ChainNode.rootNode 2] 0 1 5 = c2Reg ∧
      MyN.CreateSynapseBetweenNeurites c2Reg [ChainNode.rootNode 2]
          [ChainNode.rootNode 1] 0 1 5 = c2Reg) ∧
    (MyN.hasSynapse c2Reg 1 2 = false →
      MyN.CreateSynapseBetweenNeurites c2Reg [ChainNode.rootNode 1]
          [ChainNode.rootNode 2] 0 1 5 1 = c2Reg 1 ++ [⟨1, 2, 0, 1, 5⟩] ∧
      ∀ u, u ≠ 1 →
        MyN.CreateSynapseBetweenNeurites c2Reg [ChainNode.rootNode 1]
          [ChainNode.rootNode 2] 0 1 5 u = c2Reg u) :=
  c2_duplicate_avoidance_symmetric c2Reg 1 2 (by decide)
    [ChainNode.rootNode 1] [ChainNode.rootNode 2] (by decide) (by decide) 0 1 5

/-- C10: calling the insertion with two neurites owned by the same neuron
`a`, when `a`'s list holds no connection targeting `a` itself, appends the
self-connection `a → a`: there is no same-owner guard. -/
theorem c10_no_same_owner_guard
    (reg : Registry) (a : Int) (n1 n2 : List ChainNode)
    (h1 : MyN.FindParentNeuron n1 = some a)
    (h2 : MyN.FindParentNeuron n2 = some a)
    (hself : ((reg a).all fun s => s.target != a) = true)
    (d : ℚ) (st ti : Int) :
    MyN.CreateSynapseBetweenNeurites reg n1 n2 d st ti a =
      reg a ++ [⟨a, a, d, st, ti⟩] ∧
    ∀ u, u ≠ a →
      MyN.CreateSynapseBetweenNeurites reg n1 n2 d st ti u = reg u := by
  have hfalse : MyN.hasSynapse reg a a = false := by
    unfold MyN.hasSynapse
    rw [Bool.or_self]
    rw [List.any_eq_false]
    intro s hs
    have := List.all_eq_true.mp hself s hs
    simpa using this
  constructor
  · unfold MyN.CreateSynapseBetweenNeurites
    rw [h1, h2]
    simp [hfalse, MyN.AddSynapse]
  · intro u hu
    unfold MyN.CreateSynapseBetweenNeurites
    rw [h1, h2]
    simp [hfalse, MyN.AddSynapse, hu]

/-- Witness for C10: on an empty store, connecting two neurites of neuron 3
to each other records the self-loop 3 → 3. -/
theorem c10_no_same_owner_guard_witness :
    MyN.CreateSynapseBetweenNeurites (fun _ => []) [ChainNode.neuriteNode,
        ChainNode.rootNode 3] [ChainNode.rootNode 3] 0 1 9 3 =
      (fun _ => ([] : List Synapse)) 3 ++ [⟨3, 3, 0, 1, 9⟩] ∧
    ∀ u, u ≠ 3 →
      MyN.CreateSynapseBetweenNeurites (fun _ => []) [ChainNode.neuriteNode,
        ChainNode.rootNode 3] [ChainNode.rootNode 3] 0 1 9 u =
        (fun _ => ([] : List Synapse)) u :=
  c10_no_same_owner_guard (fun _ => []) 3
    [ChainNode.neuriteNode, ChainNode.rootNode 3] [ChainNode.rootNode 3]
    (by decide) (by decide) (by decide) 0 1 9

/-- A root agent as seen by the `MyNeuron.h` export (`MyNeuron`): uid,
colour, lifecycle state (`state_`, `enum States { progenitor, dead }`),
classification tag (`cell_type_`), and outgoing synapse list.  Agent uids
are unique in a simulation (engine invariant); the list models the
`ForEachAgent` iteration. -/
structure MNeuron where
  uid : Int
  cellColour : Int
  state : Int
  cellType : Int
  synapses : List Synapse
  deriving DecidableEq

/-- A root agent as seen by the `basic_neuron.h` export (`basic_neuron`):
uid, lifecycle state (`enum States { alive, dead }`), and outgoing synapse
list. -/
structure BNeuron where
  uid : Int
  state : Int
  synapses : List Synapse
  deriving DecidableEq

namespace MyN

/-- `States::dead` from `MyNeuron.h` (`enum States { progenitor, dead }`,
so `dead = 1`). -/
def StatesDead : Int := 1

/-- The neurons the export loop processes: every agent whose state is not
`dead`. -/
def liveNeurons (ns : List MNeuron) : List MNeuron :=
  ns.filter fun n => n.state != StatesDead

/-- Every (source uid, target uid) pair occurrence contributed by the
`adjacency[{uid, target_uid}]++` increments, in iteration order. -/
def adjOccurrences (ns : List MNeuron) : List (Int × Int) :=
  (liveNeurons ns).flatMap fun n => n.synapses.map fun s => (n.uid, s.target)

/-- The key set of the `adjacency` map. -/
def adjKeys (ns : List MNeuron) : List (Int × Int) :=
  (adjOccurrences ns).dedup

/-- The multiplicity stored under one `adjacency` key. -/
def adjCount (ns : List MNeuron) (p : Int × Int) : ℕ :=
  (adjOccurrences ns).count p

/-- The `cell_types` map entries: uid to `GetState()` (the code stores the
STATE under this name) for every live neuron. -/
def cellTypesEntries (ns : List MNeuron) : List (Int × Int) :=
  (liveNeurons ns).map fun n => (n.uid, n.state)

/-- `cell_types[uid]` lookup; a missing key default-constructs `0`
(`operator[]` semantics). -/
def lookupCellType (ns : List MNeuron) (u : Int) : Int :=
  match (cellTypesEntries ns).find? fun q => q.1 == u with
  | some q => q.2
  | none => 0

/-- The data rows of `export_adjacency_matrix_with_all_neurons`
(`adjacency_matrix_all.csv`), as (Source uid, Target uid, `Cell_Type`
column, `Synapse_Count`) tuples: one row per `adjacency` key, then one
`(id, id, cell_types[id], 0)` row per `cell_types` entry whose
self-referential key `(id, id)` is absent from `adjacency`.  Row order
within the two map-driven loops is unspecified in the source
(`unordered_map` iteration); the model fixes one admissible enumeration of
each key set. -/
def exportRows (ns : List MNeuron) : List (Int × Int × Int × Int) :=
  ((adjKeys ns).map fun p =>
    (p.1, p.2, lookupCellType ns p.1, (adjCount ns p : Int))) ++
  (((cellTypesEntries ns).filter fun q =>
      !((adjKeys ns).contains (q.1, q.1))).map fun q => (q.1, q.1, q.2, 0))

/-- The sink file name opened by the `MyNeuron.h` export. -/
def exportFileName : String := "adjacency_matrix_all.csv"

end MyN

namespace BasicN

/-- `States::dead` from `basic_neuron.h` (`enum States { alive, dead }`,
so `dead = 1`). -/
def StatesDead : Int := 1

/-- The neurons the export loop processes (non-dead). -/
def liveNeurons (ns : List BNeuron) : List BNeuron :=
  ns.filter fun n => n.state != StatesDead

/-- The `adjacency` increments of `export_connection_list`. -/
def adjOccurrences (ns : List BNeuron) : List (Int × Int) :=
  (liveNeurons ns).flatMap fun n => n.synapses.map fun s => (n.uid, s.target)

/-- The key set of the `adjacency` map. -/
def adjKeys (ns : List BNeuron) : List (Int × Int) :=
  (adjOccurrences ns).dedup

/-- The multiplicity stored under one `adjacency` key. -/
def adjCount (ns : List BNeuron) (p : Int × Int) : ℕ :=
  (adjOccurrences ns).count p

/-- The `cell_types` entries (uid to `GetState()`). -/
def cellTypesEntries (ns : List BNeuron) : List (Int × Int) :=
  (liveNeurons ns).map fun n => (n.uid, n.state)

/-- `cell_types[uid]` lookup with `operator[]` default `0`. -/
def lookupCellType (ns : List BNeuron) (u : Int) : Int :=
  match (cellTypesEntries ns).find? fun q => q.1 == u with
  | some q => q.2
  | none => 0

/-- The data rows of `export_connection_list` (`connection_list.csv`). -/
def exportRows (ns : List BNeuron) : List (Int × Int × Int × Int) :=
  ((adjKeys ns).map fun p =>
    (p.1, p.2, lookupCellType ns p.1, (adjCount ns p : Int))) ++
  (((cellTypesEntries ns).filter fun q =>
      !((adjKeys ns).contains (q.1, q.1))).map fun q => (q.1, q.1, q.2, 0))

/-- The sink file name opened by the `basic_neuron.h` export. -/
def exportFileName : String := "connection_list.csv"

end BasicN

/-- Three live owners; only owner 1 connected to owner 2, once. -/
def c4Neurons : List MNeuron :=
  [⟨1, 0, 0, 0, [⟨1, 2, 0, 1, 0⟩]⟩, ⟨2, 0, 0, 0, []⟩, ⟨3, 0, 0, 0, []⟩]

/-- Counterexample to C4 as stated: for the 3-owner run where only
1 → 2 connected once, the export does NOT consist of just the
`(1,2,·,1)` and per-isolated-owner zero rows — owner 1, although it
already appears as a source, still receives the zero self-loop row
`(1,1,·,0)`, because the code suppresses the zero row only when the
aggregate holds a self-referential key `(id,id)`, not when the owner
appears as a source. -/
theorem c4_counterexample_zero_row_despite_source :
    MyN.exportRows c4Neurons =
      [(1, 2, 0, 1), (1, 1, 0, 0), (2, 2, 0, 0), (3, 3, 0, 0)] ∧
    (1, 1, 0, 0) ∈ MyN.exportRows c4Neurons ∧
    (∃ r ∈ MyN.exportRows c4Neurons, r.1 = 1 ∧ r.2.1 = 2) := by decide

/-- C4 (amended): every live owner appears as the source of at least one
exported row, and a live owner receives the zero self-loop row
`(id, id, classification, 0)` exactly when the aggregate has no
self-referential entry `(id, id)` — regardless of whether the owner already
appears as a source of other rows. -/
theorem c4_amended_every_live_owner_appears (ns : List MNeuron) (u : Int)
    (hu : u ∈ (MyN.liveNeurons ns).map fun n => n.uid) :
    (∃ r ∈ MyN.exportRows ns, r.1 = u) ∧
    ((u, u, MyN.lookupCellType ns u, 0) ∈ MyN.exportRows ns ↔
      (u, u) ∉ MyN.adjKeys ns) := by
  have hexists : ∃ q ∈ MyN.cellTypesEntries ns, (fun q => q.1 == u) q = true := by
    obtain ⟨n, hn, hun⟩ := List.mem_map.mp hu
    exact ⟨(n.uid, n.state), List.mem_map.mpr ⟨n, hn, rfl⟩, by simp [hun]⟩
  obtain ⟨q0, hq0⟩ : ∃ q, (MyN.cellTypesEntries ns).find?
      (fun q => q.1 == u) = some q := by
    cases hf : (MyN.cellTypesEntries ns).find? fun q => q.1 == u with
    | none =>
        have := List.find?_isSome.mpr hexists
        rw [hf] at this
        exact absurd this (by simp)
    | some q => exact ⟨q, rfl⟩
  have hq0u : q0.1 = u := by
    have := List.find?_some hq0
    simpa using this
  have hq0mem : q0 ∈ MyN.cellTypesEntries ns := List.mem_of_find?_eq_some hq0
  have hlook : MyN.lookupCellType ns u = q0.2 := by
    unfold MyN.lookupCellType
    rw [hq0]
  have hzero_of_not : (u, u) ∉ MyN.adjKeys ns →
      (u, u, MyN.lookupCellType ns u, 0) ∈ MyN.exportRows ns := by
    intro hnotin
    unfold MyN.exportRows
    refine List.mem_append.mpr (Or.inr ?_)
    refine List.mem_map.mpr ⟨q0, ?_, ?_⟩
    · refine List.mem_filter.mpr ⟨hq0mem, ?_⟩
      rw [hq0u]
      simp only [Bool.not_eq_true']
      rw [← Bool.not_eq_true]
      intro hcon
      exact hnotin (List.elem_iff.mp hcon)
    · rw [hq0u, hlook]
  constructor
  · by_cases hself : (u, u) ∈ MyN.adjKeys ns
    · refine ⟨(u, u, MyN.lookupCellType ns u, (MyN.adjCount ns (u, u) : Int)),
        ?_, rfl⟩
      unfold MyN.exportRows
      exact List.mem_append.mpr (Or.inl (List.mem_map.mpr ⟨(u, u), hself, rfl⟩))
    · exact ⟨_, hzero_of_not hself, rfl⟩
  · constructor
    · intro hmem
      rcases List.mem_append.mp hmem with hmem | hmem
      · obtain ⟨p, hp, hpe⟩ := List.mem_map.mp hmem
        have hcount : (MyN.adjCount ns p : Int) = 0 := by
          have := congrArg (fun r => r.2.2.2) hpe
          simpa using this
        have hpu : p = (u, u) := by
          have h1 := congrArg (fun r => r.1) hpe
          have h2 := congrArg (fun r => r.2.1) hpe
          simp at h1 h2
          exact Prod.ext h1 h2
        have : p ∈ MyN.adjOccurrences ns := List.mem_dedup.mp hp
        have hpos := List.count_pos_iff.mpr this
        rw [show (MyN.adjCount ns p : Int) = ((MyN.adjOccurrences ns).count p : Int)
          from rfl] at hcount
        omega
      · obtain ⟨q, hq, hqe⟩ := List.mem_map.mp hmem
        have hq1 : q.1 = u := by
          have := congrArg (fun r => r.1) hqe
          simpa using this
        have hfil := (List.mem_filter.mp hq).2
        rw [hq1] at hfil
        simp only [Bool.not_eq_true'] at hfil
        intro hcon
        have hce : (MyN.adjKeys ns).contains (u, u) = true :=
          List.elem_iff.mpr hcon
        rw [hce] at hfil
        exact absurd hfil (by simp)
    · exact hzero_of_not

/-- Witness for C4 (amended) at the concrete three-owner run, owner 2. -/
theorem c4_amended_every_live_owner_appears_witness :
    (∃ r ∈ MyN.exportRows c4Neurons, r.1 = 2) ∧
    ((2, 2, MyN.lookupCellType c4Neurons 2, 0) ∈ MyN.exportRows c4Neurons ↔
      (2, 2) ∉ MyN.adjKeys c4Neurons) :=
  c4_amended_every_live_owner_appears c4Neurons 2 (by decide)

/-- A live neuron whose lifecycle state (0, `progenitor`) differs from its
classification tag `cell_type_` (7). -/
def c8Neuron : MNeuron := ⟨1, 0, 0, 7, []⟩

/-- C8 fails on the code: the third exported column (`Cell_Type`) carries
`GetState()` (here 0), not the neuron's classification tag `cell_type_`
(here 7); no row carries the classification tag. -/
theorem c8_third_column_is_state_not_cell_type :
    MyN.exportRows [c8Neuron] = [(1, 1, 0, 0)] ∧
    c8Neuron.state = 0 ∧ c8Neuron.cellType = 7 ∧
    ¬ ∃ r ∈ MyN.exportRows [c8Neuron], r.2.2.1 = c8Neuron.cellType := by
  decide

/-- The correspondence between the two neuron variants: drop the fields
(`cell_colour_`, `cell_type_`) that only `MyNeuron` carries and that none of
the four compared routines read. -/
def forgetToBasic (n : MNeuron) : BNeuron := ⟨n.uid, n.state, n.synapses⟩

theorem findParent_variants_eq (c : List ChainNode) :
    MyN.FindParentNeuron c = BasicN.FindParentNeuron c := by
  induction c with
  | nil => rfl
  | cons h t ih =>
      cases h with
      | rootNode u => rfl
      | neuriteNode => exact ih

theorem liveNeurons_forget (ns : List MNeuron) :
    BasicN.liveNeurons (ns.map forgetToBasic) =
      (MyN.liveNeurons ns).map forgetToBasic := by
  unfold BasicN.liveNeurons MyN.liveNeurons
  rw [List.filter_map]
  rfl

theorem adjOccurrences_forget (ns : List MNeuron) :
    BasicN.adjOccurrences (ns.map forgetToBasic) = MyN.adjOccurrences ns := by
  unfold BasicN.adjOccurrences MyN.adjOccurrences
  rw [liveNeurons_forget, List.flatMap_map]
  rfl

theorem cellTypesEntries_forget (ns : List MNeuron) :
    BasicN.cellTypesEntries (ns.map forgetToBasic) =
      MyN.cellTypesEntries ns := by
  unfold BasicN.cellTypesEntries MyN.cellTypesEntries
  rw [liveNeurons_forget, List.map_map]
  rfl

/-- C9: the two near-duplicate component pairs — `FindParentNeuron`,
`hasSynapse`, `CreateSynapseBetweenNeurites` and the connectivity export of
`MyNeuron.h` versus their `basic_neuron.h` counterparts — compute identical
results on corresponding inputs (related by `forgetToBasic`); only the
output file names differ. -/
theorem c9_near_duplicate_variants_agree :
    (∀ c : List ChainNode,
      MyN.FindParentNeuron c = BasicN.FindParentNeuron c) ∧
    (∀ (reg : Registry) (a b : Int),
      MyN.hasSynapse reg a b = BasicN.hasSynapse reg a b) ∧
    (∀ (reg : Registry) (n1 n2 : List ChainNode) (d : ℚ) (st ti : Int),
      MyN.CreateSynapseBetweenNeurites reg n1 n2 d st ti =
        BasicN.CreateSynapseBetweenNeurites reg n1 n2 d st ti) ∧
    (∀ ns : List MNeuron,
      MyN.exportRows ns = BasicN.exportRows (ns.map forgetToBasic)) ∧
    MyN.exportFileName ≠ BasicN.exportFileName := by
  refine ⟨findParent_variants_eq, fun reg a b => rfl, ?_, ?_, by decide⟩
  · intro reg n1 n2 d st ti
    unfold MyN.CreateSynapseBetweenNeurites BasicN.CreateSynapseBetweenNeurites
    rw [findParent_variants_eq n1, findParent_variants_eq n2]
    cases BasicN.FindParentNeuron n1 <;> cases BasicN.FindParentNeuron n2 <;>
      rfl
  · intro ns
    simp only [MyN.exportRows, BasicN.exportRows, MyN.adjKeys, BasicN.adjKeys,
      MyN.adjCount, BasicN.adjCount, MyN.lookupCellType, BasicN.lookupCellType,
      adjOccurrences_forget, cellTypesEntries_forget]

/-- The direction accumulation described by the spec: the sum of (candidate
position − tip position) over all cross-owner neurite candidates seen during
enumeration.  This definition follows the spec's words; it is stated only to
compare the claimed value with what the code computes (the code performs no
such accumulation). -/
def specDirectionSum (mUid : Int) (ns : List NeighborAgent) : Dir :=
  ((forEachNeighborWithin searchRadiusSq ns).filter fun a =>
      a.isNeurite &&
        (match motherUidOf a.ancestors with
         | some n => n != mUid
         | none => false)).foldl
    (fun d a => (d.1 + a.relPos.1, d.2.1 + a.relPos.2.1, d.2.2 + a.relPos.2.2))
    (0, 0, 0)

/-- A tip owned by root neuron 1, for the direction-output analysis. -/
def c6Tip : List ChainNode := [ChainNode.rootNode 1]

/-- One cross-owner neurite candidate at squared distance 0 whose position
offset from the tip is (1, 0, 0). -/
def c6Neighbors : List NeighborAgent :=
  [⟨true, 7, [ChainNode.rootNode 2], 0, (1, 0, 0)⟩]

/-- The classifier's body after zeta-reduction, for rewriting. -/
theorem DendriticDetector_eq_match (tipAnc : List ChainNode)
    (ns : List NeighborAgent) (dirIn : Dir) :
    DendriticDetector tipAnc ns dirIn =
      match detectorLoop (motherUidOf tipAnc)
          (forEachNeighborWithin searchRadiusSq ns) ⟨-1, none⟩ with
      | Except.error e => Except.error e
      | Except.ok st =>
          Except.ok (if st.closestUid ≠ -1 then st.closestUid else -1, dirIn)
    := rfl

/-- Counterexample to C6 as stated: with one cross-owner candidate at offset
(1,0,0) the claimed accumulated direction is (1,0,0), but the classifier
returns the direction parameter unchanged — here (0,0,0) — because the code
never writes `neighbours_direction`. -/
theorem c6_counterexample_direction_not_accumulated :
    DendriticDetector c6Tip c6Neighbors (0, 0, 0) =
      Except.ok (7, ((0, 0, 0) : Dir)) ∧
    specDirectionSum 1 c6Neighbors = ((1, 0, 0) : Dir) ∧
    ((0, 0, 0) : Dir) ≠ ((1, 0, 0) : Dir) := by
  refine ⟨?_, ?_, by decide⟩
  · have hloop : detectorLoop (some 1) c6Neighbors ⟨-1, none⟩ =
        Except.ok ⟨7, some (Real.sqrt ((0 : ℚ) : ℝ))⟩ := by
      show (match detectorStep (some 1) ⟨-1, none⟩
              ⟨true, 7, [ChainNode.rootNode 2], 0, (1, 0, 0)⟩ with
            | Except.error e => Except.error e
            | Except.ok st2 => detectorLoop (some 1) [] st2) = _
      rw [@detectorStep_cross_near
        ⟨true, 7, [ChainNode.rootNode 2], 0, (1, 0, 0)⟩ 1 2
        ⟨-1, none⟩ rfl rfl (by decide) (by decide)]
      rfl
    rw [DendriticDetector_eq_match]
    show (match detectorLoop (some 1) c6Neighbors ⟨-1, none⟩ with
          | Except.error e => Except.error e
          | Except.ok st =>
              Except.ok (if st.closestUid ≠ -1 then st.closestUid else -1,
                ((0, 0, 0) : Dir))) = _
    rw [hloop]
    rfl
  · show ((0 : ℚ) + 1, (0 : ℚ) + 0, (0 : ℚ) + 0) = ((1, 0, 0) : Dir)
    norm_num [Prod.ext_iff]

/-- C6 (amended): the classifier never writes its auxiliary direction
output; whenever it returns, the direction component equals the value that
was passed in, alongside the identity of the closest qualifying candidate.
-/
theorem c6_amended_direction_returned_unchanged
    (tipAnc : List ChainNode) (ns : List NeighborAgent) (dirIn : Dir)
    (u : Int) (dirOut : Dir)
    (h : DendriticDetector tipAnc ns dirIn = Except.ok (u, dirOut)) :
    dirOut = dirIn := by
  rw [DendriticDetector_eq_match] at h
  cases hl : detectorLoop (motherUidOf tipAnc)
      (forEachNeighborWithin searchRadiusSq ns) ⟨-1, none⟩ with
  | error e =>
      rw [hl] at h
      exact absurd h (by simp)
  | ok st =>
      rw [hl] at h
      simp only [Except.ok.injEq, Prod.mk.injEq] at h
      exact h.2.symm

/-- Witness for C6 (amended) at a call that returns. -/
theorem c6_amended_direction_returned_unchanged_witness :
    ((1, 2, 3) : Dir) = ((1, 2, 3) : Dir) :=
  c6_amended_direction_returned_unchanged [ChainNode.rootNode 1] [] (1, 2, 3)
    (-1) (1, 2, 3) rfl

/-- A tip owned by root neuron 1. -/
def c7Tip : List ChainNode := [ChainNode.rootNode 1]

/-- A neighbour neurite whose parent chain ends without reaching a root
neuron. -/
def c7BadNeighbor : NeighborAgent :=
  ⟨true, 9, [ChainNode.neuriteNode], 0, (0, 0, 0)⟩

/-- C7 fails on the code: when a neighbour's parent chain has no owning
root neuron the classifier dereferences the null owner pointer
(`neighbor_mother_neuron->GetUid()`), and when the tip's own chain has
none the owner comparison reads the uninitialized `mother_cell_uid` — both
undefined behaviour rather than "no neighbour found".  Only the registry
insertion (`CreateSynapseBetweenNeurites`, third conjunct) handles the
unresolved-owner case as the claim describes, by leaving the store
unchanged. -/
theorem c7_unresolved_owner_undefined_behaviour :
    DendriticDetector c7Tip [c7BadNeighbor] (0, 0, 0) =
      Except.error DetUB.nullDeref ∧
    DendriticDetector [ChainNode.neuriteNode]
        [⟨true, 9, [ChainNode.rootNode 2], 0, (0, 0, 0)⟩] (0, 0, 0) =
      Except.error DetUB.uninitRead ∧
    MyN.CreateSynapseBetweenNeurites (fun _ => []) [ChainNode.neuriteNode]
        [ChainNode.rootNode 2] 0 1 0 = (fun _ => []) :=
  ⟨rfl, rfl, rfl⟩

/-- The inputs one invocation of `SynapseFormation::Run` draws from the
engine: the tip's mother chain, the neighbour enumeration, the current
simulated-step counter, and the resource manager's agent lookup
(`rm->GetAgent(uid)` cast to a neurite, given by that agent's mother
chain). -/
structure RunEnv where
  tipAncestors : List ChainNode
  neighbors : List NeighborAgent
  timeStep : Int
  agentChains : Int → List ChainNode

/-- `SynapseFormation::Run` (`synapse_op.h`): when the `synapsed_` flag is
unset, run the detector (the uninitialized `neighbours_direction` local is
modelled as a fixed value — the code never reads it) and, if a closest
neighbour was found (uid distinct from the sentinel `-1`), create a synapse
between the tip and that agent with literal distance 0.0, strength 1 and
the current time step.  No path assigns `synapsed_`: the returned flag is
the unchanged input flag. -/
noncomputable def SynapseFormationRun (synapsed : Bool) (env : RunEnv)
    (reg : Registry) : Except DetUB (Bool × Registry) :=
  if !synapsed then
    match DendriticDetector env.tipAncestors env.neighbors (0, 0, 0) with
    | Except.error e => Except.error e
    | Except.ok (closest, _) =>
        if closest ≠ -1 then
          Except.ok (synapsed, BasicN.CreateSynapseBetweenNeurites reg
            env.tipAncestors (env.agentChains closest) 0 1 env.timeStep)
        else Except.ok (synapsed, reg)
  else Except.ok (synapsed, reg)

/-- A tip owned by root neuron 1 with an empty neighbourhood at tick 500. -/
def c3Env : RunEnv := ⟨[ChainNode.rootNode 1], [], 500, fun _ => []⟩

/-- C3 fails on the code: `Run` completes a full formation attempt (guard
passed, detector ran, no neighbour found) yet returns with `synapsed_`
still `false` — no code path assigns the flag, so the tip never reaches the
Resolved state and the `!synapsed_` guard admits it again on every
subsequent tick. -/
theorem c3_synapsed_flag_never_set :
    SynapseFormationRun false c3Env (fun _ => []) =
      Except.ok (false, fun _ => []) := rfl

/-- An agent as the scheduling operation sees it: whether it casts to a
neurite element, and the `SynapseFormation` behaviour instances currently
attached to it (each carrying its `synapsed_` flag). -/
structure SimAgent where
  isNeurite : Bool
  behaviors : List Bool
  deriving DecidableEq

/-- `AddSynapseBehavior` (`synapse_op.h`): attach a fresh
`SynapseFormation` behaviour (flag initialized `false`) to a neurite
element; do nothing for agents that are not neurite elements. -/
def AddSynapseBehavior (a : SimAgent) : SimAgent :=
  if a.isNeurite then ⟨a.isNeurite, a.behaviors ++ [false]⟩ else a

/-- `synapse_op::operator()` at one tick: when the simulated-step counter
exceeds `500 - 3`, call `AddSynapseBehavior` on every agent; otherwise do
nothing. -/
def synapseOpTick (steps : ℕ) (ags : List SimAgent) : List SimAgent :=
  if 500 - 3 < steps then ags.map AddSynapseBehavior else ags

/-- The agent population after the operation has run at ticks `0..n`,
starting from `ags` (the engine runs the registered standalone operation
once per tick with the current step counter). -/
def stateAfterOp (ags : List SimAgent) : ℕ → List SimAgent
  | 0 => synapseOpTick 0 ags
  | n + 1 => synapseOpTick (n + 1) (stateAfterOp ags n)

/-- The number of formation attempts behaviours make at tick `n`: the
engine runs every attached behaviour once per tick, and a behaviour
attempts formation exactly when its `synapsed_` flag is unset (the `Run`
guard).  Attachment therefore determines attempts. -/
def attemptsAt (ags : List SimAgent) (n : ℕ) : ℕ :=
  ((stateAfterOp ags n).map fun a =>
    (a.behaviors.filter fun s => !s).length).sum

theorem stateAfterOp_early (ags : List SimAgent) :
    ∀ n : ℕ, n ≤ 497 → stateAfterOp ags n = ags := by
  intro n
  induction n with
  | zero =>
      intro _
      show synapseOpTick 0 ags = ags
      unfold synapseOpTick
      rw [if_neg (by omega)]
  | succ n ih =>
      intro hn
      show synapseOpTick (n + 1) (stateAfterOp ags n) = ags
      unfold synapseOpTick
      rw [if_neg (by omega), ih (by omega)]

/-- C5: with no `SynapseFormation` behaviour attached initially, the
per-tick policy performs no action at any tick `n ≤ 497` (the population is
unchanged and no formation attempt occurs), and a formation attempt at tick
`n` implies `n > 497 = 500 - 3`: the formation decision runs only in the
trailing window of the last 3 ticks of the 500-tick reference run. -/
theorem c5_formation_only_in_trailing_window (ags : List SimAgent)
    (h : ∀ a ∈ ags, a.behaviors = []) (n : ℕ) :
    (n ≤ 497 → stateAfterOp ags n = ags ∧ attemptsAt ags n = 0) ∧
    (attemptsAt ags n ≠ 0 → 500 - 3 < n) := by
  have hzero : ∀ m : ℕ, m ≤ 497 → attemptsAt ags m = 0 := by
    intro m hm
    unfold attemptsAt
    rw [stateAfterOp_early ags m hm]
    apply List.sum_eq_zero
    intro x hx
    obtain ⟨a, ha, hax⟩ := List.mem_map.mp hx
    rw [h a ha] at hax
    simpa using hax.symm
  refine ⟨fun hn => ⟨stateAfterOp_early ags n hn, hzero n hn⟩, ?_⟩
  intro hatt
  by_contra hc
  exact hatt (hzero n (by omega))

/-- Witness for C5 at the last tick before the window opens. -/
theorem c5_formation_only_in_trailing_window_witness :
    (497 ≤ 497 → stateAfterOp [⟨true, []⟩] 497 = [⟨true, []⟩] ∧
      attemptsAt [⟨true, []⟩] 497 = 0) ∧
    (attemptsAt [⟨true, []⟩] 497 ≠ 0 → 500 - 3 < 497) :=
  c5_formation_only_in_trailing_window [⟨true, []⟩] (by decide) 497
